import Mathlib

/-!
# Verification of the gameplay simulation core of `script.js`

A shallow embedding of the gameplay core of the repository's `script.js`
(progression engine, combat resolver, inventory ledger, loot generator,
resource-node harvesting), with theorems settling the specification's
claims about it.

Modelling conventions:
* JS numbers holding integer game quantities (stats, hp, xp, quantities)
  are modelled as `Int`/`Nat`.
* `Math.random()` draws are modelled as explicit rational parameters in
  `[0,1)`; derived indices use exact rational floors.
* `Math.pow(x, 1.6)` and the decimal multiplications `* 0.6`, `* 0.4`
  are modelled with exact real/rational arithmetic (1.6 = 8/5,
  0.6 = 3/5, 0.4 = 2/5); `floor (50 * x ^ 1.6)` for a natural `x` is
  then the integer fifth root of `50^5 * x^8`, which the embedding
  computes exactly.
-/

set_option maxRecDepth 100000

/-- Linear upward scan computing the integer fifth root: starting from a
candidate `acc` with `acc^5 ≤ n`, increment while the next candidate still
satisfies the bound.  `fuel` bounds the number of increments. -/
def iroot5Go (n : Nat) : Nat → Nat → Nat
  | 0, acc => acc
  | fuel + 1, acc => if (acc + 1) ^ 5 ≤ n then iroot5Go n fuel (acc + 1) else acc

/-- Integer fifth root: the largest `r` with `r^5 ≤ n`. -/
def iroot5 (n : Nat) : Nat := iroot5Go n (n + 1) 0

/-- Source: `script.js` line 586,
`function xpForLevel(lvl) { return Math.floor(50 * Math.pow(lvl - 1, 1.6) + 0); }`.
With exact real arithmetic, `⌊50 * (lvl-1)^1.6⌋ = ⌊(50^5 * (lvl-1)^8)^(1/5)⌋`,
the integer fifth root of `50^5 * (lvl-1)^8`.  (`lvl - 1` is `Nat`
subtraction; the game only calls this with `lvl ≥ 1`.) -/
def xpForLevel (lvl : Nat) : Nat := iroot5 (50 ^ 5 * (lvl - 1) ^ 8)

/-- The three combat-relevant stat fields, as in the enemy template
`stats: { attack: 1, strength: 1, defense: 0 }` (`script.js` line 263). -/
structure CoreStats where
  attack : Int
  strength : Int
  defense : Int
deriving DecidableEq, Repr

/-- The player's stat block, `script.js` line 98:
`stats: { attack: 1, strength: 1, defense: 1, hp: 10, maxHp: 10 }`. -/
structure Stats extends CoreStats where
  hp : Int
  maxHp : Int
deriving DecidableEq, Repr

/-- Per-skill progress, `{ lvl: 1, xp: 0 }` (`script.js` lines 100-103). -/
structure Skill where
  lvl : Nat
  xp : Int
deriving DecidableEq, Repr

/-- The four skill records of `state.skills` (`script.js` lines 99-104). -/
structure Skills where
  woodcutting : Skill
  fishing : Skill
  cooking : Skill
  combat : Skill
deriving DecidableEq, Repr

/-- The valid keys of `state.skills`. -/
inductive SkillKey where
  | woodcutting
  | fishing
  | cooking
  | combat
deriving DecidableEq, Repr

def Skills.get (s : Skills) : SkillKey → Skill
  | .woodcutting => s.woodcutting
  | .fishing => s.fishing
  | .cooking => s.cooking
  | .combat => s.combat

def Skills.set (s : Skills) : SkillKey → Skill → Skills
  | .woodcutting, sk => { s with woodcutting := sk }
  | .fishing, sk => { s with fishing := sk }
  | .cooking, sk => { s with cooking := sk }
  | .combat, sk => { s with combat := sk }

/-- The gameplay-relevant mutable player state: `state.stats` and
`state.skills` of `script.js` lines 93-108. -/
structure GState where
  stats : Stats
  skills : Skills
deriving DecidableEq, Repr

/-- Source: `script.js` lines 93-108, the initial `state` literal. -/
def initState : GState :=
  { stats := { attack := 1, strength := 1, defense := 1, hp := 10, maxHp := 10 }
    skills :=
      { woodcutting := { lvl := 1, xp := 0 }
        fishing := { lvl := 1, xp := 0 }
        cooking := { lvl := 1, xp := 0 }
        combat := { lvl := 1, xp := 0 } } }

/-- The per-level-up stat bonus of `grantSkillXp` (`script.js` lines
592-602): the four `if (skillKey === ...)` branches (the keys are
distinct, so the chain of independent `if`s is a case split).  For
`combat`, `roll` is the branch's `Math.random()` draw (`0.34`/`0.67` are
the source's literals), `maxHp` rises by 1 and `hp` heals by 2 capped at
the new `maxHp`. -/
def applyLevelBonus (key : SkillKey) (st : Stats) (roll : ℚ) : Stats :=
  match key with
  | .woodcutting => { st with strength := st.strength + 1 }
  | .fishing => { st with defense := st.defense + 1 }
  | .cooking => { st with attack := st.attack + 1 }
  | .combat =>
    let st1 : Stats :=
      if roll < (0.34 : ℚ) then { st with attack := st.attack + 1 }
      else if roll < (0.67 : ℚ) then { st with strength := st.strength + 1 }
      else { st with defense := st.defense + 1 }
    let st2 : Stats := { st1 with maxHp := st1.maxHp + 1 }
    { st2 with hp := min (st2.hp + 2) st2.maxHp }

/-- Only the `combat` branch consumes a `Math.random()` draw. -/
def nextRolls (key : SkillKey) (rolls : List ℚ) : List ℚ :=
  match key with
  | .combat => rolls.tail
  | _ => rolls

/-- The `while (sk.xp >= xpForLevel(sk.lvl + 1))` loop of `grantSkillXp`
(`script.js` lines 589-603).  Each iteration increments the level and
applies the skill's stat bonus.  `fuel` bounds the iteration count;
`grantSkillXp` passes enough fuel for the guard to fail before fuel runs
out (`levelLoop_guard_false`), so the fuelled loop models the JS `while`
completely. -/
def levelLoop (key : SkillKey) : Nat → Skill → Stats → List ℚ → Skill × Stats
  | 0, sk, st, _ => (sk, st)
  | fuel + 1, sk, st, rolls =>
    if (xpForLevel (sk.lvl + 1) : Int) ≤ sk.xp then
      levelLoop key fuel ⟨sk.lvl + 1, sk.xp⟩
        (applyLevelBonus key st (rolls.headD 0)) (nextRolls key rolls)
    else (sk, st)

/-- Source: `script.js` lines 587-604, `grantSkillXp(skillKey, amount)`:
add `amount` to the skill's xp, then run the level-up loop.  (The JS
`if (!sk) return` guard is unrepresentable here: `SkillKey` only has the
four valid keys.) -/
def grantSkillXp (key : SkillKey) (amount : Int) (rolls : List ℚ) (s : GState) : GState :=
  let sk0 := s.skills.get key
  let sk1 : Skill := { sk0 with xp := sk0.xp + amount }
  let r := levelLoop key (sk1.xp.toNat + 2) sk1 s.stats rolls
  { stats := r.2, skills := s.skills.set key r.1 }

/-- The final level the loop reaches from `lvl` with stored xp `xp`. -/
def finalLvl (xp : Int) : Nat → Nat → Nat
  | 0, lvl => lvl
  | fuel + 1, lvl => if (xpForLevel (lvl + 1) : Int) ≤ xp then finalLvl xp fuel (lvl + 1) else lvl

/-- Source: `script.js` lines 609-614, `combat.damage(attackerStats,
defenderStats)`:
`base = 1 + Math.floor(strength*0.6 + attack*0.4)`,
`reduction = Math.floor(defense*0.4)`, `roll = Math.floor(Math.random()*2)`,
result `Math.max(1, base + roll - reduction)`.  The decimal products are
modelled exactly (`0.6 = 6/10`, `0.4 = 4/10`), so each `Math.floor` is an
integer division by 10 (`Int` division is Euclidean, hence floor for the
positive divisor); `r` is the `Math.random()` draw. -/
def damage (a d : CoreStats) (r : ℚ) : Int :=
  let base : Int := 1 + (6 * a.strength + 4 * a.attack) / 10
  let reduction : Int := 4 * d.defense / 10
  let roll : Int := ⌊r * 2⌋
  max 1 (base + roll - reduction)

/-- The combat events that mutate the player's hp or stats, with their
random draws: `hit estats r` is `combat.enemyAttackPlayer` (lines 631-636,
including the `playerDeath` reset of lines 652-655 when hp reaches 0);
`kill rolls` is the hp/xp part of `combat.killEnemy` (lines 638-650:
`grantSkillXp('combat', 20)` then heal `+2` capped at `maxHp`);
`attackXp rolls` is the `grantSkillXp('combat', 8)` of
`combat.handlePlayerAttack` (line 626). -/
inductive CombatEv where
  | hit (estats : CoreStats) (r : ℚ) (rolls : List ℚ)
  | kill (rolls : List ℚ)
  | attackXp (rolls : List ℚ)

/-- One combat mutation of the player state.  For `hit`, the source is
`state.stats.hp = Math.max(0, state.stats.hp - dmg); if (state.stats.hp <= 0)
this.playerDeath();` with `dmg = damage(enemy.stats, state.stats)`, and
`playerDeath` sets `hp = maxHp` (the teleport is outside this state). -/
def combatStep (s : GState) : CombatEv → GState
  | .hit estats r _ =>
    let dmg := damage estats s.stats.toCoreStats r
    let hp1 := max 0 (s.stats.hp - dmg)
    if hp1 ≤ 0 then { s with stats := { s.stats with hp := s.stats.maxHp } }
    else { s with stats := { s.stats with hp := hp1 } }
  | .kill rolls =>
    let s1 := grantSkillXp .combat 20 rolls s
    { s1 with stats := { s1.stats with hp := min s1.stats.maxHp (s1.stats.hp + 2) } }
  | .attackXp rolls => grantSkillXp .combat 8 rolls s

/-- An inventory item/slot.  JS items are duck-typed records; the fields
read by the inventory ledger and loot code are `name`, `qty` (may be
absent), `value`, `unique` (absent reads as false) and, for generated
unique items, a stat block. -/
structure Item where
  name : String
  qty : Option Nat
  value : Int
  unique : Bool
  stats : Option CoreStats
deriving DecidableEq, Repr

/-- JS truthiness of the `it.qty` field: present and nonzero. -/
def Item.qtyTruthy (it : Item) : Bool :=
  match it.qty with
  | some n => n != 0
  | none => false

/-- `state.inventory.find(x => x.name===it.name && !x.unique)` followed by
`existing.qty += it.qty`: add `n` onto the first non-unique slot named
`nm`, or `none` when no such slot exists.  (If the found slot itself
lacked a `qty` field the JS `+=` would produce `NaN`; no item source in
the game creates a non-unique slot without `qty`, and the model adds onto
a `0` default.) -/
def mergeFirst (nm : String) (n : Nat) : List Item → Option (List Item)
  | [] => none
  | x :: xs =>
    if x.name = nm ∧ x.unique = false then
      some ({ x with qty := some (x.qty.getD 0 + n) } :: xs)
    else (mergeFirst nm n xs).map (x :: ·)

/-- Source: `script.js` lines 715-719, `addItem(it)`:
`const existing = state.inventory.find(x=>x.name===it.name && !x.unique);
if (existing && it.qty) existing.qty += it.qty;
else state.inventory.push({ ...it });`
The merge happens exactly when such a slot exists AND the incoming `qty`
is truthy; otherwise a (copy of the) item is appended. -/
def addItem (inv : List Item) (it : Item) : List Item :=
  if it.qtyTruthy then
    match mergeFirst it.name (it.qty.getD 0) inv with
    | some inv2 => inv2
    | none => inv ++ [it]
  else inv ++ [it]

/-- Source: `script.js` lines 720-724, `removeItemAt(idx, qty=1)`:
no-op when the index is out of range (`if (!it) return`); decrement in
place when more than `qty` remains (`(it.qty ?? 1) > qty`); otherwise
remove the slot (`splice(idx, 1)`).  (The in-place decrement on a slot
lacking `qty` is unreachable for `qty ≥ 1`, since `(undefined ?? 1) > qty`
fails there; the model decrements the `?? 1` default.) -/
def removeItemAt (inv : List Item) (idx : Nat) (qty : Nat) : List Item :=
  match inv[idx]? with
  | none => inv
  | some it =>
    if qty < it.qty.getD 1 then inv.set idx { it with qty := some (it.qty.getD 1 - qty) }
    else inv.eraseIdx idx

/-- Source: `script.js` line 662. -/
def prefixes : List String := ["Elder", "Starlit", "Warden’s", "Whispering", "Brookhaven"]

/-- Source: `script.js` line 663 (`bases`). -/
def bases : List String := ["Blade", "Axe", "Halberd", "Spear", "Mace"]

/-- Source: `script.js` line 664. -/
def suffixes : List String := ["of Tides", "of Embers", "of Zephyrs", "of Dawn", "of the Keep"]

/-- `(Math.random()*len)|0` for a draw `q ∈ [0,1)`: the truncation `|0` of
a nonnegative value is its floor. -/
def randIdx (q : ℚ) (len : Nat) : Nat := (⌊q * len⌋).toNat

/-- The `roll` helper of `generateUniqueItem`: `1 + (Math.random()*3|0)`. -/
def statRoll (q : ℚ) : Int := 1 + (⌊q * 3⌋).toNat

/-- The six `Math.random()` draws consumed by `generateUniqueItem`, in
source order: three name picks, then the attack/strength/defense rolls. -/
structure URand where
  pq : ℚ
  bq : ℚ
  sq : ℚ
  aq : ℚ
  stq : ℚ
  dq : ℚ
deriving DecidableEq, Repr

/-- Source: `script.js` lines 661-670, `generateUniqueItem()`: a name
assembled from random picks of the three word lists, three stat rolls in
1-3, `value = 100 + (sum of stat rolls) * 25`, and `unique: true`.  The
returned object has no `qty` field. -/
def generateUniqueItem (r : URand) : Item :=
  let name := (prefixes.getD (randIdx r.pq prefixes.length) "") ++ " " ++
    (bases.getD (randIdx r.bq bases.length) "") ++ " " ++
    (suffixes.getD (randIdx r.sq suffixes.length) "")
  let stats : CoreStats :=
    { attack := statRoll r.aq, strength := statRoll r.stq, defense := statRoll r.dq }
  { name := name, qty := none,
    value := 100 + (stats.attack + stats.strength + stats.defense) * 25,
    unique := true, stats := some stats }

structure Vec3 where
  x : ℚ
  y : ℚ
  z : ℚ
deriving DecidableEq, Repr

/-- Squared Euclidean distance: `BABYLON.Vector3.Distance(a,b) > t` with
`t ≥ 0` holds iff `distSq a b > t^2`, which avoids the square root. -/
def distSq (a b : Vec3) : ℚ :=
  (a.x - b.x) ^ 2 + (a.y - b.y) ^ 2 + (a.z - b.z) ^ 2

/-- The interactable kinds, `type: 'tree' | 'fishing' | 'cooking'`
(`script.js` lines 308, 315, 322). -/
inductive InterKind where
  | tree
  | fishing
  | cooking
deriving DecidableEq, Repr

/-- An interactable entry `{ type, node, respawn }`; `pos` stands for the
scene node's position. -/
structure InterNode where
  kind : InterKind
  pos : Vec3
  respawn : ℚ
deriving DecidableEq, Repr

/-- The world state touched by the harvest actions: player position, the
player's stats/skills, the inventory, the acted-on node, and the pending
`moveTo` destination. -/
structure World where
  playerPos : Vec3
  gs : GState
  inventory : List Item
  inter : InterNode
  dest : Option Vec3
deriving DecidableEq, Repr

/-- Source: `script.js` lines 676-685, `skills.woodcut(inter)`: cooldown
guard (`if (inter.respawn > 0) return`), range guard (radius 2, the
action becomes `moveTo` when out of range), then
`grantSkillXp('woodcutting', 10 + ((Math.random()*6)|0))`,
`addItem({name:'Log', qty:1, value:2})`, `inter.respawn = 3`.  `q` is the
xp draw; the scaling flourish and the `cooldown` interval timer are
presentation/timer effects outside this state. -/
def woodcut (q : ℚ) (w : World) : World :=
  if 0 < w.inter.respawn then w
  else if (2 : ℚ) ^ 2 < distSq w.playerPos w.inter.pos then { w with dest := some w.inter.pos }
  else
    { w with
      gs := grantSkillXp .woodcutting (10 + ⌊q * 6⌋) [] w.gs
      inventory := addItem w.inventory
        { name := "Log", qty := some 1, value := 2, unique := false, stats := none }
      inter := { w.inter with respawn := 3 } }

/-- Source: `script.js` lines 686-693, `skills.fish(inter)`: cooldown
guard, range guard (radius 2.2), then grant fishing xp, add a Raw Fish,
`inter.respawn = 3`. -/
def fish (q : ℚ) (w : World) : World :=
  if 0 < w.inter.respawn then w
  else if (2.2 : ℚ) ^ 2 < distSq w.playerPos w.inter.pos then { w with dest := some w.inter.pos }
  else
    { w with
      gs := grantSkillXp .fishing (10 + ⌊q * 6⌋) [] w.gs
      inventory := addItem w.inventory
        { name := "Raw Fish", qty := some 1, value := 3, unique := false, stats := none }
      inter := { w.inter with respawn := 3 } }

/-- Source: `script.js` lines 694-702, `skills.cook(inter)`: find a
`'Raw Fish'` slot with `(qty ?? 1) > 0` (silent no-op when absent), range
guard (radius 2.2), then grant cooking xp, `removeItemAt(idx, 1)`, add a
Cooked Fish.  Unlike `woodcut`/`fish` there is no `respawn > 0` guard,
and `respawn` is not set. -/
def cook (q : ℚ) (w : World) : World :=
  match w.inventory.findIdx? (fun i => i.name == "Raw Fish" && decide (0 < i.qty.getD 1)) with
  | none => w
  | some idx =>
    if (2.2 : ℚ) ^ 2 < distSq w.playerPos w.inter.pos then { w with dest := some w.inter.pos }
    else
      { w with
        gs := grantSkillXp .cooking (10 + ⌊q * 6⌋) [] w.gs
        inventory := addItem (removeItemAt w.inventory idx 1)
          { name := "Cooked Fish", qty := some 1, value := 5, unique := false, stats := none } }

/-- All 5 × 5 × 5 name combinations `generateUniqueItem` can produce. -/
def allUniqueNames : List String :=
  prefixes.flatMap fun p => bases.flatMap fun b =>
    suffixes.map fun suf => p ++ " " ++ b ++ " " ++ suf

theorem iroot5Go_spec (n : Nat) : ∀ fuel acc, acc ^ 5 ≤ n → n < (acc + fuel + 1) ^ 5 →
    (iroot5Go n fuel acc) ^ 5 ≤ n ∧ n < (iroot5Go n fuel acc + 1) ^ 5 := by
  intro fuel
  induction fuel with
  | zero =>
    intro acc h1 h2
    rw [Nat.add_zero] at h2
    simp only [iroot5Go]
    exact ⟨h1, h2⟩
  | succ fuel ih =>
    intro acc h1 h2
    by_cases hg : (acc + 1) ^ 5 ≤ n
    · have hrec := ih (acc + 1) hg (by
        have e : acc + 1 + fuel + 1 = acc + (fuel + 1) + 1 := by omega
        rw [e]; exact h2)
      simp only [iroot5Go, hg, if_true]
      exact hrec
    · simp only [iroot5Go, hg, if_false]
      refine ⟨h1, ?_⟩
      omega

theorem iroot5_spec (n : Nat) : (iroot5 n) ^ 5 ≤ n ∧ n < (iroot5 n + 1) ^ 5 := by
  refine iroot5Go_spec n (n + 1) 0 (by simp) ?_
  have h1 : n < n + 2 := by omega
  have h2 : n + 2 ≤ (n + 2) ^ 5 := Nat.le_self_pow (by norm_num) _
  calc n < n + 2 := h1
    _ ≤ (n + 2) ^ 5 := h2
    _ = (0 + (n + 1) + 1) ^ 5 := by ring_nf

/-- If `k^5 ≤ n` then `k ≤ iroot5 n`. -/
theorem le_iroot5 (n k : Nat) (h : k ^ 5 ≤ n) : k ≤ iroot5 n := by
  by_contra hlt
  push_neg at hlt
  have h2 := (iroot5_spec n).2
  have : (iroot5 n + 1) ^ 5 ≤ k ^ 5 := Nat.pow_le_pow_left (by omega) 5
  omega

example : xpForLevel 2 = 50 := by decide

example : xpForLevel 3 = 151 := by decide

example : xpForLevel 4 = 289 := by decide

/-- Raising a fifth power back by the real exponent `1/5` is the identity. -/
theorem rpow_fifth_pow5 (x : ℝ) (hx : 0 ≤ x) : (x ^ (5 : ℕ)) ^ ((1 : ℝ)/5) = x := by
  rw [← Real.rpow_natCast x 5, ← Real.rpow_mul hx]
  norm_num

/-- The floor of the real fifth root of a natural number is its integer
fifth root. -/
theorem floor_rpow_fifth (m : Nat) : ⌊((m : ℝ)) ^ ((1 : ℝ)/5)⌋ = (iroot5 m : ℤ) := by
  obtain ⟨h1, h2⟩ := iroot5_spec m
  rw [Int.floor_eq_iff]
  constructor
  · have hc : (((iroot5 m : ℕ) : ℝ)) ^ (5 : ℕ) ≤ (m : ℝ) := by exact_mod_cast h1
    have hle := Real.rpow_le_rpow (by positivity) hc (by norm_num : (0:ℝ) ≤ 1/5)
    rw [rpow_fifth_pow5 _ (Nat.cast_nonneg _)] at hle
    exact_mod_cast hle
  · have hc : (m : ℝ) < (((iroot5 m + 1 : ℕ) : ℝ)) ^ (5 : ℕ) := by exact_mod_cast h2
    have hlt := Real.rpow_lt_rpow (Nat.cast_nonneg m) hc (by norm_num : (0:ℝ) < 1/5)
    rw [rpow_fifth_pow5 _ (Nat.cast_nonneg _)] at hlt
    push_cast
    push_cast at hlt
    linarith

/-- `50 * x ^ 1.6` for a natural `x`, rewritten as a single real fifth root. -/
theorem mul_rpow_sixteen_tenths (L : Nat) :
    (50 : ℝ) * (L : ℝ) ^ (1.6 : ℝ) = ((50 ^ 5 * L ^ 8 : ℕ) : ℝ) ^ ((1 : ℝ)/5) := by
  have hcast : ((50 ^ 5 * L ^ 8 : ℕ) : ℝ) = ((50 : ℝ)) ^ (5 : ℕ) * ((L : ℝ)) ^ (8 : ℕ) := by
    push_cast
    ring
  rw [hcast, Real.mul_rpow (by positivity) (by positivity),
    rpow_fifth_pow5 50 (by norm_num)]
  congr 1
  rw [← Real.rpow_natCast ((L : ℝ)) 8, ← Real.rpow_mul (Nat.cast_nonneg L)]
  norm_num

/-- The code's threshold function agrees with the exact real-arithmetic
reading of `Math.floor(50 * Math.pow(lvl - 1, 1.6))`. -/
theorem xpForLevel_eq_floor (L : Nat) :
    (xpForLevel (L + 1) : ℤ) = ⌊(50 : ℝ) * (L : ℝ) ^ (1.6 : ℝ)⌋ := by
  rw [mul_rpow_sixteen_tenths L, floor_rpow_fifth]
  simp [xpForLevel]

example : (xpForLevel 3 : ℤ) = ⌊(50 : ℝ) * ((2 : ℕ) : ℝ) ^ (1.6 : ℝ)⌋ := xpForLevel_eq_floor 2

theorem Skills.get_set (s : Skills) (key : SkillKey) (sk : Skill) :
    (s.set key sk).get key = sk := by
  cases key <;> rfl

/-- Each level's threshold dominates `50 * level`, the arithmetic fact
behind termination of the level-up loop. -/
theorem le_xpForLevel (l : Nat) : 50 * l ≤ xpForLevel (l + 1) := by
  have h : (50 * l) ^ 5 ≤ 50 ^ 5 * l ^ 8 := by
    rcases Nat.eq_zero_or_pos l with rfl | hl
    · simp
    · calc (50 * l) ^ 5 = 50 ^ 5 * l ^ 5 := by ring
        _ ≤ 50 ^ 5 * l ^ 8 := by
          exact Nat.mul_le_mul_left _ (Nat.pow_le_pow_right hl (by norm_num))
  simpa [xpForLevel] using le_iroot5 _ _ h

/-- The level-up loop never touches the skill's xp. -/
theorem levelLoop_xp_const (key : SkillKey) :
    ∀ fuel sk st rolls, (levelLoop key fuel sk st rolls).1.xp = sk.xp := by
  intro fuel
  induction fuel with
  | zero => intro sk st rolls; simp [levelLoop]
  | succ fuel ih =>
    intro sk st rolls
    simp only [levelLoop]
    by_cases hg : (xpForLevel (sk.lvl + 1) : Int) ≤ sk.xp
    · rw [if_pos hg]
      exact ih ⟨sk.lvl + 1, sk.xp⟩ _ _
    · simp [hg]

/-- The level-up loop never decreases the skill's level. -/
theorem levelLoop_lvl_le (key : SkillKey) :
    ∀ fuel sk st rolls, sk.lvl ≤ (levelLoop key fuel sk st rolls).1.lvl := by
  intro fuel
  induction fuel with
  | zero => intro sk st rolls; simp [levelLoop]
  | succ fuel ih =>
    intro sk st rolls
    simp only [levelLoop]
    by_cases hg : (xpForLevel (sk.lvl + 1) : Int) ≤ sk.xp
    · rw [if_pos hg]
      exact le_trans (Nat.le_succ _) (ih ⟨sk.lvl + 1, sk.xp⟩ _ _)
    · simp [hg]

/-- With the fuel chosen by `grantSkillXp`, the loop always runs to guard
failure: the fuelled loop is a complete model of the JS `while` loop. -/
theorem levelLoop_guard_false (key : SkillKey) :
    ∀ fuel sk st rolls, sk.xp.toNat + 2 ≤ sk.lvl + fuel →
      ¬ ((xpForLevel ((levelLoop key fuel sk st rolls).1.lvl + 1) : Int) ≤
        (levelLoop key fuel sk st rolls).1.xp) := by
  intro fuel
  induction fuel with
  | zero =>
    intro sk st rolls hfuel hguard
    simp only [levelLoop] at hguard
    have h1 : (50 * sk.lvl : Int) ≤ sk.xp := by
      calc (50 * sk.lvl : Int) ≤ (xpForLevel (sk.lvl + 1) : Int) := by
            exact_mod_cast le_xpForLevel sk.lvl
        _ ≤ sk.xp := hguard
    omega
  | succ fuel ih =>
    intro sk st rolls hfuel
    simp only [levelLoop]
    by_cases hg : (xpForLevel (sk.lvl + 1) : Int) ≤ sk.xp
    · rw [if_pos hg]
      exact ih ⟨sk.lvl + 1, sk.xp⟩ _ _
        (show sk.xp.toNat + 2 ≤ sk.lvl + 1 + fuel from by omega)
    · rw [if_neg hg]
      exact hg

/-- A level-up bonus keeps `hp` within `[0, maxHp]`. -/
theorem applyLevelBonus_hp (key : SkillKey) (st : Stats) (roll : ℚ)
    (h1 : 0 ≤ st.hp) (h2 : st.hp ≤ st.maxHp) :
    0 ≤ (applyLevelBonus key st roll).hp ∧
      (applyLevelBonus key st roll).hp ≤ (applyLevelBonus key st roll).maxHp := by
  cases key
  case combat =>
    simp only [applyLevelBonus]
    split_ifs <;> constructor <;> simp <;> omega
  all_goals exact ⟨h1, h2⟩

/-- The level-up loop keeps `hp` within `[0, maxHp]`. -/
theorem levelLoop_hp (key : SkillKey) :
    ∀ fuel sk st rolls, 0 ≤ st.hp → st.hp ≤ st.maxHp →
      0 ≤ (levelLoop key fuel sk st rolls).2.hp ∧
        (levelLoop key fuel sk st rolls).2.hp ≤ (levelLoop key fuel sk st rolls).2.maxHp := by
  intro fuel
  induction fuel with
  | zero => intro sk st rolls h1 h2; exact ⟨h1, h2⟩
  | succ fuel ih =>
    intro sk st rolls h1 h2
    simp only [levelLoop]
    by_cases hg : (xpForLevel (sk.lvl + 1) : Int) ≤ sk.xp
    · rw [if_pos hg]
      obtain ⟨hb1, hb2⟩ := applyLevelBonus_hp key st (rolls.headD 0) h1 h2
      exact ih ⟨sk.lvl + 1, sk.xp⟩ _ _ hb1 hb2
    · rw [if_neg hg]
      exact ⟨h1, h2⟩

/-- `grantSkillXp` keeps `hp` within `[0, maxHp]`. -/
theorem grantSkillXp_hp (key : SkillKey) (amount : Int) (rolls : List ℚ) (s : GState)
    (h1 : 0 ≤ s.stats.hp) (h2 : s.stats.hp ≤ s.stats.maxHp) :
    0 ≤ (grantSkillXp key amount rolls s).stats.hp ∧
      (grantSkillXp key amount rolls s).stats.hp ≤
        (grantSkillXp key amount rolls s).stats.maxHp := by
  unfold grantSkillXp
  exact levelLoop_hp key _ _ s.stats rolls h1 h2

theorem finalLvl_le (xp : Int) : ∀ fuel lvl, lvl ≤ finalLvl xp fuel lvl := by
  intro fuel
  induction fuel with
  | zero => intro lvl; simp [finalLvl]
  | succ fuel ih =>
    intro lvl
    simp only [finalLvl]
    by_cases hg : (xpForLevel (lvl + 1) : Int) ≤ xp
    · rw [if_pos hg]
      exact le_trans (Nat.le_succ _) (ih (lvl + 1))
    · simp [hg]

theorem levelLoop_wood_lvl :
    ∀ fuel sk st rolls, (levelLoop .woodcutting fuel sk st rolls).1.lvl = finalLvl sk.xp fuel sk.lvl := by
  intro fuel
  induction fuel with
  | zero => intro sk st rolls; simp [levelLoop, finalLvl]
  | succ fuel ih =>
    intro sk st rolls
    simp only [levelLoop, finalLvl]
    by_cases hg : (xpForLevel (sk.lvl + 1) : Int) ≤ sk.xp
    · rw [if_pos hg, if_pos hg]
      exact ih ⟨sk.lvl + 1, sk.xp⟩ _ _
    · rw [if_neg hg, if_neg hg]

/-- Each woodcutting level-up adds exactly `+1` strength: the loop adds the
number of levels gained. -/
theorem levelLoop_wood_strength :
    ∀ fuel sk st rolls, (levelLoop .woodcutting fuel sk st rolls).2.strength =
      st.strength + ((finalLvl sk.xp fuel sk.lvl - sk.lvl : ℕ) : ℤ) := by
  intro fuel
  induction fuel with
  | zero => intro sk st rolls; simp [levelLoop, finalLvl]
  | succ fuel ih =>
    intro sk st rolls
    simp only [levelLoop, finalLvl]
    by_cases hg : (xpForLevel (sk.lvl + 1) : Int) ≤ sk.xp
    · rw [if_pos hg, if_pos hg]
      have hrec := ih ⟨sk.lvl + 1, sk.xp⟩ (applyLevelBonus .woodcutting st (rolls.headD 0))
        (nextRolls .woodcutting rolls)
      rw [hrec]
      have hle := finalLvl_le sk.xp fuel (sk.lvl + 1)
      simp only [applyLevelBonus]
      omega
    · rw [if_neg hg, if_neg hg]
      simp

theorem one_le_damage (a d : CoreStats) (r : ℚ) : 1 ≤ damage a d r :=
  le_max_left 1 _

/-- One combat mutation keeps `hp` within `[0, maxHp]`. -/
theorem combatStep_hp (s : GState) (ev : CombatEv)
    (h1 : 0 ≤ s.stats.hp) (h2 : s.stats.hp ≤ s.stats.maxHp) :
    0 ≤ (combatStep s ev).stats.hp ∧
      (combatStep s ev).stats.hp ≤ (combatStep s ev).stats.maxHp := by
  cases ev with
  | hit estats r rolls =>
    simp only [combatStep]
    by_cases hd : max 0 (s.stats.hp - damage estats s.stats.toCoreStats r) ≤ 0
    · rw [if_pos hd]
      constructor
      · exact le_trans h1 h2
      · exact le_refl _
    · rw [if_neg hd]
      have hdmg := one_le_damage estats s.stats.toCoreStats r
      constructor
      · simp
      · simp only []
        omega
  | kill rolls =>
    obtain ⟨g1, g2⟩ := grantSkillXp_hp .combat 20 rolls s h1 h2
    simp only [combatStep]
    constructor
    · simp
      omega
    · simp
  | attackXp rolls => exact grantSkillXp_hp .combat 8 rolls s h1 h2

/-- Folding any sequence of combat mutations keeps `hp` within
`[0, maxHp]`. -/
theorem combatFold_hp (evs : List CombatEv) :
    ∀ s : GState, 0 ≤ s.stats.hp → s.stats.hp ≤ s.stats.maxHp →
      0 ≤ (evs.foldl combatStep s).stats.hp ∧
        (evs.foldl combatStep s).stats.hp ≤ (evs.foldl combatStep s).stats.maxHp := by
  induction evs with
  | nil => intro s h1 h2; exact ⟨h1, h2⟩
  | cons ev evs ih =>
    intro s h1 h2
    obtain ⟨g1, g2⟩ := combatStep_hp s ev h1 h2
    exact ih (combatStep s ev) g1 g2

/-- Claim C1, counterexample: the claim's formula
`xpThreshold(L+1) = floor(50*(L-1)^1.6)` fails at `L = 2` (the code gives
`151`, the claim's right-hand side `⌊50*(2-1)^1.6⌋ = 50`), and the
claim's value `xpThreshold(3) = 152` is also wrong: `⌊50*2^1.6⌋ = 151`. -/
theorem C1_xpThreshold_cex :
    xpForLevel 3 = 151 ∧
      ((xpForLevel 3 : ℤ) ≠ ⌊(50 : ℝ) * ((2 : ℝ) - 1) ^ (1.6 : ℝ)⌋) ∧
      xpForLevel 3 ≠ 152 := by
  refine ⟨by decide, ?_, by decide⟩
  rw [show ((2 : ℝ) - 1) = 1 from by norm_num, Real.one_rpow, mul_one]
  rw [show ((50 : ℝ)) = ((50 : ℤ) : ℝ) from by norm_num, Int.floor_intCast]
  rw [show xpForLevel 3 = 151 from by decide]
  decide

/-- Claim C1 (amended): for every level `L ≥ 1`,
`xpThreshold(L+1) = floor(50 * L^1.6)`; in particular the threshold for
the first level-up is `xpThreshold(2) = 50` and the next is
`xpThreshold(3) = floor(50*2^1.6) = 151`. -/
theorem C1_xpThreshold (L : Nat) (_h : 1 ≤ L) :
    ((xpForLevel (L + 1) : ℤ) = ⌊(50 : ℝ) * (L : ℝ) ^ (1.6 : ℝ)⌋) ∧
      xpForLevel 2 = 50 ∧ xpForLevel 3 = 151 :=
  ⟨xpForLevel_eq_floor L, by decide, by decide⟩

/-- Claim C1, witness at `L = 2`. -/
theorem C1_xpThreshold_witness :
    ((xpForLevel 3 : ℤ) = ⌊(50 : ℝ) * ((2 : ℕ) : ℝ) ^ (1.6 : ℝ)⌋) ∧
      xpForLevel 2 = 50 ∧ xpForLevel 3 = 151 :=
  C1_xpThreshold 2 (by norm_num)

/-- Claim C2: for every pair of attacker and defender stats, `damage`
returns exactly
`max(1, floor(attacker.strength*0.6 + attacker.attack*0.4) + 1 + roll
- floor(defender.defense*0.4))` where `roll` is 0 or 1, hence the result
is always `≥ 1` regardless of the defender's defense. -/
theorem C2_damage_formula (a d : CoreStats) (r : ℚ) (h0 : 0 ≤ r) (h1 : r < 1) :
    ∃ roll : ℤ, (roll = 0 ∨ roll = 1) ∧
      damage a d r = max 1 (⌊(0.6 : ℚ) * a.strength + (0.4 : ℚ) * a.attack⌋ + 1 + roll
        - ⌊(0.4 : ℚ) * d.defense⌋) ∧
      1 ≤ damage a d r := by
  refine ⟨⌊r * 2⌋, ?_, ?_, one_le_damage a d r⟩
  · have hl : (0 : ℤ) ≤ ⌊r * 2⌋ := Int.floor_nonneg.mpr (by positivity)
    have hu : ⌊r * 2⌋ < 2 := Int.floor_lt.mpr (by push_cast; linarith)
    omega
  · have hB : ⌊(0.6 : ℚ) * a.strength + (0.4 : ℚ) * a.attack⌋
        = (6 * a.strength + 4 * a.attack) / 10 := by
      rw [show (0.6 : ℚ) * a.strength + (0.4 : ℚ) * a.attack
          = ((6 * a.strength + 4 * a.attack : ℤ) : ℚ) / ((10 : ℕ) : ℚ) from by push_cast; ring,
        Rat.floor_intCast_div_natCast]
      norm_num
    have hR : ⌊(0.4 : ℚ) * d.defense⌋ = 4 * d.defense / 10 := by
      rw [show (0.4 : ℚ) * d.defense = ((4 * d.defense : ℤ) : ℚ) / ((10 : ℕ) : ℚ) from by
          push_cast; ring,
        Rat.floor_intCast_div_natCast]
      norm_num
    rw [hB, hR]
    simp only [damage]
    congr 1
    ring

/-- Claim C2, witness: attacker `{attack:2, strength:3, defense:0}`,
defender `{attack:0, strength:0, defense:100}`, draw `1/2`. -/
theorem C2_damage_formula_witness :
    ∃ roll : ℤ, (roll = 0 ∨ roll = 1) ∧
      damage ⟨2, 3, 0⟩ ⟨0, 0, 100⟩ (1/2)
        = max 1 (⌊(0.6 : ℚ) * (⟨2, 3, 0⟩ : CoreStats).strength
          + (0.4 : ℚ) * (⟨2, 3, 0⟩ : CoreStats).attack⌋ + 1 + roll
          - ⌊(0.4 : ℚ) * (⟨0, 0, 100⟩ : CoreStats).defense⌋) ∧
      1 ≤ damage ⟨2, 3, 0⟩ ⟨0, 0, 100⟩ (1/2) :=
  C2_damage_formula ⟨2, 3, 0⟩ ⟨0, 0, 100⟩ (1/2) (by norm_num) (by norm_num)

/-- Claim C6, counterexample: `grantSkillXp` with a negative amount
decreases the stored xp (from the initial state, granting `-5`
woodcutting xp stores `-5 < 0`). -/
theorem C6_grantXp_cex :
    (grantSkillXp .woodcutting (-5) [] initState).skills.woodcutting.xp
      < initState.skills.woodcutting.xp := by
  decide

/-- Claim C6 (amended): for every skill and every nonnegative xp amount
passed to `grantSkillXp`, the skill's stored xp and level never decrease
(zero amounts no-op past the loop guard; a negative amount still never
decreases the level, but decreases the stored xp by the amount). -/
theorem C6_xp_monotone (key : SkillKey) (amount : Int) (rolls : List ℚ) (s : GState)
    (h : 0 ≤ amount) :
    (s.skills.get key).xp ≤ ((grantSkillXp key amount rolls s).skills.get key).xp ∧
      (s.skills.get key).lvl ≤ ((grantSkillXp key amount rolls s).skills.get key).lvl := by
  unfold grantSkillXp
  rw [Skills.get_set]
  constructor
  · rw [levelLoop_xp_const]
    dsimp only
    omega
  · exact levelLoop_lvl_le key _
      ⟨(s.skills.get key).lvl, (s.skills.get key).xp + amount⟩ s.stats rolls

/-- Claim C6, witness at woodcutting, amount 60, from the initial state. -/
theorem C6_xp_monotone_witness :
    (initState.skills.get .woodcutting).xp
        ≤ ((grantSkillXp .woodcutting 60 [] initState).skills.get .woodcutting).xp ∧
      (initState.skills.get .woodcutting).lvl
        ≤ ((grantSkillXp .woodcutting 60 [] initState).skills.get .woodcutting).lvl :=
  C6_xp_monotone .woodcutting 60 [] initState (by norm_num)

/-- Claim C8: a single `grantSkillXp` call whose amount crosses two level
thresholds applies both level-ups and both stat bonuses, each
re-evaluating the next threshold: from woodcutting level 1 with 0 xp,
granting 250 xp yields level 3 and strength exactly 2 above its starting
value (thresholds 50 and 151 are crossed, 289 is not). -/
theorem C8_double_levelup (s : GState) (rolls : List ℚ)
    (h : s.skills.woodcutting = ⟨1, 0⟩) :
    (grantSkillXp .woodcutting 250 rolls s).skills.woodcutting.lvl = 3 ∧
      (grantSkillXp .woodcutting 250 rolls s).stats.strength = s.stats.strength + 2 := by
  unfold grantSkillXp
  simp only [Skills.get, Skills.set, h]
  constructor
  · show (levelLoop .woodcutting _ _ _ _).1.lvl = 3
    rw [levelLoop_wood_lvl]
    norm_num
    decide
  · show (levelLoop .woodcutting _ _ _ _).2.strength = s.stats.strength + 2
    rw [levelLoop_wood_strength]
    norm_num
    decide

/-- Claim C8, witness from the initial game state. -/
theorem C8_double_levelup_witness :
    (grantSkillXp .woodcutting 250 [] initState).skills.woodcutting.lvl = 3 ∧
      (grantSkillXp .woodcutting 250 [] initState).stats.strength
        = initState.stats.strength + 2 :=
  C8_double_levelup initState [] rfl

/-- Claim C10: `addItem` merges only when the incoming item's `qty` field
is a truthy number: a non-unique incoming item whose `qty` is absent or 0
is appended as a new slot even when a same-named non-unique slot exists;
and generated unique items carry no `qty` field, so they always take this
appending path. -/
theorem C10_addItem_qty_truthy :
    (∀ (inv : List Item) (it : Item), it.unique = false →
      (it.qty = none ∨ it.qty = some 0) → addItem inv it = inv ++ [it]) ∧
    (∀ r : URand, (generateUniqueItem r).qty = none) ∧
    (∀ (inv : List Item) (r : URand),
      addItem inv (generateUniqueItem r) = inv ++ [generateUniqueItem r]) := by
  have hfalsy : ∀ it : Item, (it.qty = none ∨ it.qty = some 0) → it.qtyTruthy = false := by
    intro it hq
    rcases hq with hq | hq <;> simp [Item.qtyTruthy, hq]
  refine ⟨?_, ?_, ?_⟩
  · intro inv it _ hq
    simp [addItem, hfalsy it hq]
  · intro r
    rfl
  · intro inv r
    simp [addItem, hfalsy (generateUniqueItem r) (Or.inl rfl)]

/-- Claim C10, witness: a non-unique qty-less "Log" is appended alongside
an existing non-unique "Log" slot, and a generated unique item has no
`qty` and is appended. -/
theorem C10_addItem_qty_truthy_witness :
    addItem [⟨"Log", some 1, 2, false, none⟩] ⟨"Log", none, 2, false, none⟩
        = [⟨"Log", some 1, 2, false, none⟩] ++ [⟨"Log", none, 2, false, none⟩] ∧
      (generateUniqueItem ⟨0, 0, 0, 0, 0, 0⟩).qty = none ∧
      addItem [] (generateUniqueItem ⟨0, 0, 0, 0, 0, 0⟩)
        = [] ++ [generateUniqueItem ⟨0, 0, 0, 0, 0, 0⟩] :=
  ⟨C10_addItem_qty_truthy.1 _ _ rfl (Or.inl rfl),
    C10_addItem_qty_truthy.2.1 _,
    C10_addItem_qty_truthy.2.2 _ _⟩

/-- Claim C3: player hp always stays in `[0, maxHp]`: after every
sequence of combat mutations (enemy attacks with their death reset,
kill-reward heals with their combat xp, attack xp grants with their
level-up heals) starting from `hp = maxHp`, hp never exceeds `maxHp` and
never goes below 0. -/
theorem C3_hp_bounds (evs : List CombatEv) (s : GState)
    (hstart : s.stats.hp = s.stats.maxHp) (hnn : 0 ≤ s.stats.maxHp) :
    0 ≤ (evs.foldl combatStep s).stats.hp ∧
      (evs.foldl combatStep s).stats.hp ≤ (evs.foldl combatStep s).stats.maxHp :=
  combatFold_hp evs s (by rw [hstart]; exact hnn) (by rw [hstart])

/-- Claim C3, witness: a hit, a kill reward and an attack-xp grant from
the initial state. -/
theorem C3_hp_bounds_witness :
    0 ≤ (([CombatEv.hit ⟨1, 1, 0⟩ (1/2) [], CombatEv.kill [], CombatEv.attackXp []].foldl
          combatStep initState)).stats.hp ∧
      (([CombatEv.hit ⟨1, 1, 0⟩ (1/2) [], CombatEv.kill [], CombatEv.attackXp []].foldl
          combatStep initState)).stats.hp
        ≤ (([CombatEv.hit ⟨1, 1, 0⟩ (1/2) [], CombatEv.kill [], CombatEv.attackXp []].foldl
          combatStep initState)).stats.maxHp :=
  C3_hp_bounds [CombatEv.hit ⟨1, 1, 0⟩ (1/2) [], CombatEv.kill [], CombatEv.attackXp []]
    initState rfl (by decide)

/-- `mergeFirst` skips a prefix without matching slots and rewrites the
first matching slot in place. -/
theorem mergeFirst_append (nm : String) (n : Nat) (pre post : List Item) (x : Item)
    (hpre : ∀ y ∈ pre, ¬(y.name = nm ∧ y.unique = false))
    (hx : x.name = nm) (hu : x.unique = false) :
    mergeFirst nm n (pre ++ x :: post)
      = some (pre ++ { x with qty := some (x.qty.getD 0 + n) } :: post) := by
  induction pre with
  | nil =>
    simp only [List.nil_append, mergeFirst]
    rw [if_pos ⟨hx, hu⟩]
  | cons y ys ih =>
    have hy := hpre y (List.mem_cons_self y ys)
    simp only [List.cons_append, mergeFirst, List.append_eq]
    rw [if_neg hy, ih (fun z hz => hpre z (List.mem_cons_of_mem y hz))]
    rfl

/-- Claim C4, counterexample: two same-named unique items do NOT always
end up as two separate slots — an incoming unique item with a truthy
`qty` merges into an existing same-named non-unique slot (the find only
checks the existing slot's `unique` flag).  Adding the unique item
`{name:"X", qty:2, unique:true}` twice to `[{name:"X", qty:1}]` leaves a
single merged non-unique slot of quantity 5. -/
theorem C4_addItem_cex :
    addItem (addItem [⟨"X", some 1, 0, false, none⟩] ⟨"X", some 2, 0, true, none⟩)
        ⟨"X", some 2, 0, true, none⟩
      = [⟨"X", some 5, 0, false, none⟩] := by
  decide

/-- Claim C4 (amended): `addItem` merges an incoming item whose `qty` is
a nonzero number into the first existing non-unique slot with the same
name by adding the incoming quantity — regardless of the incoming item's
own `unique` flag — and otherwise appends a new slot; adding
`{name:"Log", qty:1}` twice to an empty inventory yields exactly one slot
with quantity 2, and two unique items carrying no `qty` field (as the
generated unique items are) always append as two separate slots. -/
theorem C4_addItem :
    (addItem (addItem [] ⟨"Log", some 1, 2, false, none⟩) ⟨"Log", some 1, 2, false, none⟩
      = [⟨"Log", some 2, 2, false, none⟩]) ∧
    (∀ (inv : List Item) (u1 u2 : Item), u1.qty = none → u2.qty = none →
      addItem (addItem inv u1) u2 = inv ++ [u1, u2]) ∧
    (∀ (pre post : List Item) (x it : Item) (n q : Nat), it.qty = some n → n ≠ 0 →
      x.qty = some q →
      (∀ y ∈ pre, ¬(y.name = it.name ∧ y.unique = false)) →
      x.name = it.name → x.unique = false →
      addItem (pre ++ x :: post) it = pre ++ { x with qty := some (q + n) } :: post) := by
  refine ⟨by decide, ?_, ?_⟩
  · intro inv u1 u2 h1 h2
    have f1 : u1.qtyTruthy = false := by simp [Item.qtyTruthy, h1]
    have f2 : u2.qtyTruthy = false := by simp [Item.qtyTruthy, h2]
    simp [addItem, f1, f2]
  · intro pre post x it n q hn hn0 hq hpre hname hu
    have ht : it.qtyTruthy = true := by simp [Item.qtyTruthy, hn, hn0]
    simp only [addItem, ht, if_true]
    rw [mergeFirst_append it.name (it.qty.getD 0) pre post x hpre hname hu]
    simp [hn, hq]

/-- Claim C4, witness: the Log merge, two qty-less unique items
appending, and a merge into the head slot. -/
theorem C4_addItem_witness :
    (addItem (addItem [] ⟨"Log", some 1, 2, false, none⟩) ⟨"Log", some 1, 2, false, none⟩
      = [⟨"Log", some 2, 2, false, none⟩]) ∧
    (addItem (addItem [] (⟨"Relic", none, 100, true, none⟩ : Item))
        ⟨"Relic", none, 100, true, none⟩
      = [] ++ [⟨"Relic", none, 100, true, none⟩, ⟨"Relic", none, 100, true, none⟩]) ∧
    (addItem ([] ++ (⟨"Log", some 1, 2, false, none⟩ : Item) :: [])
        ⟨"Log", some 1, 2, false, none⟩
      = [] ++ (⟨"Log", some 2, 2, false, none⟩ : Item) :: []) :=
  ⟨C4_addItem.1,
    C4_addItem.2.1 [] ⟨"Relic", none, 100, true, none⟩ ⟨"Relic", none, 100, true, none⟩ rfl rfl,
    C4_addItem.2.2 [] [] ⟨"Log", some 1, 2, false, none⟩ ⟨"Log", some 1, 2, false, none⟩ 1 1
      rfl (by decide) rfl (by simp) rfl rfl⟩

/-- Claim C5: `removeItemAt(idx, qty)` decrements the slot's quantity in
place when more than `qty` remains (a slot with qty 3 removing 1 leaves
qty 2); when the resulting quantity would be `≤ 0` it removes the slot
entirely (a slot with qty 1 removing 1 deletes the slot); and on every
out-of-range index it leaves the inventory unchanged and signals
nothing. -/
theorem C5_removeQuantity :
    (∀ (inv : List Item) (idx qty : Nat), inv.length ≤ idx → removeItemAt inv idx qty = inv) ∧
    (∀ (inv : List Item) (idx qty : Nat) (it : Item), inv[idx]? = some it →
      qty < it.qty.getD 1 →
      removeItemAt inv idx qty = inv.set idx { it with qty := some (it.qty.getD 1 - qty) }) ∧
    (∀ (inv : List Item) (idx qty : Nat) (it : Item), inv[idx]? = some it →
      it.qty.getD 1 ≤ qty → removeItemAt inv idx qty = inv.eraseIdx idx) ∧
    (removeItemAt [⟨"Log", some 3, 2, false, none⟩] 0 1 = [⟨"Log", some 2, 2, false, none⟩]) ∧
    (removeItemAt [⟨"Log", some 1, 2, false, none⟩] 0 1 = []) := by
  refine ⟨?_, ?_, ?_, by decide, by decide⟩
  · intro inv idx qty h
    have hnone : inv[idx]? = none := List.getElem?_eq_none h
    simp [removeItemAt, hnone]
  · intro inv idx qty it hit hlt
    simp [removeItemAt, hit, hlt]
  · intro inv idx qty it hit hle
    have hnlt : ¬ qty < it.qty.getD 1 := not_lt.mpr hle
    simp [removeItemAt, hit, hnlt]

/-- Claim C5, witness: the out-of-range no-op on an empty inventory, the
in-place decrement on a qty-3 slot, and the slot removal on a qty-1
slot. -/
theorem C5_removeQuantity_witness :
    (removeItemAt ([] : List Item) 0 1 = []) ∧
    (removeItemAt [⟨"Log", some 3, 2, false, none⟩] 0 1
      = [⟨"Log", some 3, 2, false, none⟩].set 0
          ⟨"Log", some ((⟨"Log", some 3, 2, false, none⟩ : Item).qty.getD 1 - 1), 2, false, none⟩) ∧
    (removeItemAt [⟨"Log", some 1, 2, false, none⟩] 0 1
      = [⟨"Log", some 1, 2, false, none⟩].eraseIdx 0) :=
  ⟨C5_removeQuantity.1 [] 0 1 (by decide),
    C5_removeQuantity.2.1 [⟨"Log", some 3, 2, false, none⟩] 0 1 ⟨"Log", some 3, 2, false, none⟩
      rfl (by decide),
    C5_removeQuantity.2.2.1 [⟨"Log", some 1, 2, false, none⟩] 0 1 ⟨"Log", some 1, 2, false, none⟩
      rfl (by decide)⟩

/-- Claim C7, counterexample: `cook` does not check the node's cooldown.
On a cooking node with `cooldownRemaining = 1 > 0`, with the player at
the node and one Raw Fish in the inventory, `cook` changes the inventory
(consumes the fish, adds a Cooked Fish) and grants cooking xp. -/
theorem C7_harvest_cex :
    (0 : ℚ) < (World.mk ⟨0, 0, 0⟩ initState [⟨"Raw Fish", some 1, 3, false, none⟩]
        ⟨.cooking, ⟨0, 0, 0⟩, 1⟩ none).inter.respawn ∧
    (cook 0 (World.mk ⟨0, 0, 0⟩ initState [⟨"Raw Fish", some 1, 3, false, none⟩]
        ⟨.cooking, ⟨0, 0, 0⟩, 1⟩ none)).inventory
      = [⟨"Cooked Fish", some 1, 5, false, none⟩] ∧
    (cook 0 (World.mk ⟨0, 0, 0⟩ initState [⟨"Raw Fish", some 1, 3, false, none⟩]
        ⟨.cooking, ⟨0, 0, 0⟩, 1⟩ none)).gs.skills.cooking.xp = 10 ∧
    initState.skills.cooking.xp = 0 := by
  have hfind : (([⟨"Raw Fish", some 1, 3, false, none⟩] : List Item).findIdx?
      (fun i => i.name == "Raw Fish" && decide (0 < i.qty.getD 1))) = some 0 := rfl
  have hdist : ¬ ((2.2 : ℚ) ^ 2 < distSq ⟨0, 0, 0⟩ ⟨0, 0, 0⟩) := by norm_num [distSq]
  have hxp : (10 : ℤ) + ⌊(0 : ℚ) * 6⌋ = 10 := by norm_num
  refine ⟨by norm_num, ?_, ?_, rfl⟩
  · simp only [cook, hfind, hdist, if_false]
    decide
  · simp only [cook, hfind, hdist, if_false]
    rw [hxp]
    decide

/-- Claim C7 (amended): `woodcut` and `fish` require the node Ready
(`cooldownRemaining == 0`) and the player within the kind radius (2.0 for
the tree, 2.2 for fishing) — on a cooling node they produce zero
inventory and xp change, and out of range they only issue a movement
command; `cook` requires the raw-fish prerequisite and the 2.2 radius but
ignores the node's cooldown (its node never enters cooldown), and out of
range it changes neither inventory nor stats/skills. -/
theorem C7_harvest_guards :
    (∀ (q : ℚ) (w : World), 0 < w.inter.respawn → woodcut q w = w) ∧
    (∀ (q : ℚ) (w : World), 0 < w.inter.respawn → fish q w = w) ∧
    (∀ (q : ℚ) (w : World), w.inter.respawn ≤ 0 →
      (2 : ℚ) ^ 2 < distSq w.playerPos w.inter.pos →
      woodcut q w = { w with dest := some w.inter.pos }) ∧
    (∀ (q : ℚ) (w : World), w.inter.respawn ≤ 0 →
      (2.2 : ℚ) ^ 2 < distSq w.playerPos w.inter.pos →
      fish q w = { w with dest := some w.inter.pos }) ∧
    (∀ (q : ℚ) (w : World), (2.2 : ℚ) ^ 2 < distSq w.playerPos w.inter.pos →
      (cook q w).inventory = w.inventory ∧ (cook q w).gs = w.gs) := by
  refine ⟨?_, ?_, ?_, ?_, ?_⟩
  · intro q w h
    unfold woodcut
    rw [if_pos h]
  · intro q w h
    unfold fish
    rw [if_pos h]
  · intro q w h1 h2
    unfold woodcut
    rw [if_neg (not_lt.mpr h1), if_pos h2]
  · intro q w h1 h2
    unfold fish
    rw [if_neg (not_lt.mpr h1), if_pos h2]
  · intro q w hdist
    cases hfind : w.inventory.findIdx?
        (fun i => i.name == "Raw Fish" && decide (0 < i.qty.getD 1)) with
    | none => simp [cook, hfind]
    | some idx => simp [cook, hfind, hdist]

/-- Claim C7, witness: concrete cooling and out-of-range worlds for each
of the five guard statements. -/
theorem C7_harvest_guards_witness :
    (woodcut 0 (World.mk ⟨0, 0, 0⟩ initState [] ⟨.tree, ⟨0, 0, 0⟩, 1⟩ none)
      = World.mk ⟨0, 0, 0⟩ initState [] ⟨.tree, ⟨0, 0, 0⟩, 1⟩ none) ∧
    (fish 0 (World.mk ⟨0, 0, 0⟩ initState [] ⟨.fishing, ⟨0, 0, 0⟩, 1⟩ none)
      = World.mk ⟨0, 0, 0⟩ initState [] ⟨.fishing, ⟨0, 0, 0⟩, 1⟩ none) ∧
    (woodcut 0 (World.mk ⟨0, 0, 0⟩ initState [] ⟨.tree, ⟨3, 0, 0⟩, 0⟩ none)
      = { World.mk ⟨0, 0, 0⟩ initState [] ⟨.tree, ⟨3, 0, 0⟩, 0⟩ none with
          dest := some ⟨3, 0, 0⟩ }) ∧
    (fish 0 (World.mk ⟨0, 0, 0⟩ initState [] ⟨.fishing, ⟨3, 0, 0⟩, 0⟩ none)
      = { World.mk ⟨0, 0, 0⟩ initState [] ⟨.fishing, ⟨3, 0, 0⟩, 0⟩ none with
          dest := some ⟨3, 0, 0⟩ }) ∧
    ((cook 0 (World.mk ⟨0, 0, 0⟩ initState [⟨"Raw Fish", some 1, 3, false, none⟩]
          ⟨.cooking, ⟨3, 0, 0⟩, 0⟩ none)).inventory
        = [⟨"Raw Fish", some 1, 3, false, none⟩] ∧
      (cook 0 (World.mk ⟨0, 0, 0⟩ initState [⟨"Raw Fish", some 1, 3, false, none⟩]
          ⟨.cooking, ⟨3, 0, 0⟩, 0⟩ none)).gs = initState) :=
  ⟨C7_harvest_guards.1 0 _ (by norm_num),
    C7_harvest_guards.2.1 0 _ (by norm_num),
    C7_harvest_guards.2.2.1 0 _ (by norm_num) (by norm_num [distSq]),
    C7_harvest_guards.2.2.2.1 0 _ (by norm_num) (by norm_num [distSq]),
    C7_harvest_guards.2.2.2.2 0 _ (by norm_num [distSq])⟩

/-- A random index `(Math.random()*len)|0` lies below `len`. -/
theorem randIdx_lt (q : ℚ) (len : Nat) (_h0 : 0 ≤ q) (h1 : q < 1) (hlen : 0 < len) :
    randIdx q len < len := by
  have hlen' : (0 : ℚ) < len := by exact_mod_cast hlen
  have hfl : ⌊q * (len : ℚ)⌋ < (len : ℤ) := by
    apply Int.floor_lt.mpr
    push_cast
    linarith [mul_lt_mul_of_pos_right h1 hlen']
  unfold randIdx
  omega

/-- A stat roll `1 + (Math.random()*3|0)` lies in `{1, 2, 3}`. -/
theorem statRoll_bounds (q : ℚ) (h0 : 0 ≤ q) (h1 : q < 1) :
    1 ≤ statRoll q ∧ statRoll q ≤ 3 := by
  have hl : (0 : ℤ) ≤ ⌊q * 3⌋ := Int.floor_nonneg.mpr (by positivity)
  have hu : ⌊q * 3⌋ < 3 := by
    apply Int.floor_lt.mpr
    push_cast
    linarith
  unfold statRoll
  omega

/-- Claim C9: every synthesized unique item has three stat rolls each in
`{1,2,3}`, value equal to `100 + 25 * (sum of the three stat rolls)` and
therefore in `[100, 325]`, a name drawn from the 125 combinations of
5 prefixes × 5 base names × 5 suffixes, and is marked unique
(non-mergeable). -/
theorem C9_unique_item (r : URand)
    (h1 : 0 ≤ r.pq) (h2 : r.pq < 1) (h3 : 0 ≤ r.bq) (h4 : r.bq < 1)
    (h5 : 0 ≤ r.sq) (h6 : r.sq < 1) (h7 : 0 ≤ r.aq) (h8 : r.aq < 1)
    (h9 : 0 ≤ r.stq) (h10 : r.stq < 1) (h11 : 0 ≤ r.dq) (h12 : r.dq < 1) :
    (generateUniqueItem r).unique = true ∧
    (∃ st : CoreStats, (generateUniqueItem r).stats = some st ∧
      (1 ≤ st.attack ∧ st.attack ≤ 3) ∧ (1 ≤ st.strength ∧ st.strength ≤ 3) ∧
      (1 ≤ st.defense ∧ st.defense ≤ 3) ∧
      (generateUniqueItem r).value = 100 + 25 * (st.attack + st.strength + st.defense)) ∧
    (100 ≤ (generateUniqueItem r).value ∧ (generateUniqueItem r).value ≤ 325) ∧
    (generateUniqueItem r).name ∈ allUniqueNames ∧
    allUniqueNames.length = 125 := by
  obtain ⟨a1, a2⟩ := statRoll_bounds r.aq h7 h8
  obtain ⟨b1, b2⟩ := statRoll_bounds r.stq h9 h10
  obtain ⟨c1, c2⟩ := statRoll_bounds r.dq h11 h12
  have hv : (generateUniqueItem r).value
      = 100 + (statRoll r.aq + statRoll r.stq + statRoll r.dq) * 25 := rfl
  have hip : randIdx r.pq prefixes.length < prefixes.length := randIdx_lt _ _ h1 h2 (by decide)
  have hib : randIdx r.bq bases.length < bases.length := randIdx_lt _ _ h3 h4 (by decide)
  have his : randIdx r.sq suffixes.length < suffixes.length := randIdx_lt _ _ h5 h6 (by decide)
  refine ⟨rfl,
    ⟨⟨statRoll r.aq, statRoll r.stq, statRoll r.dq⟩, rfl, ⟨a1, a2⟩, ⟨b1, b2⟩, ⟨c1, c2⟩,
      by rw [hv]; ring⟩,
    ⟨by rw [hv]; omega, by rw [hv]; omega⟩, ?_, rfl⟩
  have hname : (generateUniqueItem r).name
      = prefixes.getD (randIdx r.pq prefixes.length) "" ++ " "
        ++ bases.getD (randIdx r.bq bases.length) "" ++ " "
        ++ suffixes.getD (randIdx r.sq suffixes.length) "" := rfl
  rw [hname, List.getD_eq_getElem?_getD, List.getD_eq_getElem?_getD,
    List.getD_eq_getElem?_getD, List.getElem?_eq_getElem hip,
    List.getElem?_eq_getElem hib, List.getElem?_eq_getElem his]
  simp only [Option.getD_some]
  exact List.mem_flatMap.mpr ⟨_, List.getElem_mem hip,
    List.mem_flatMap.mpr ⟨_, List.getElem_mem hib,
      List.mem_map.mpr ⟨_, List.getElem_mem his, rfl⟩⟩⟩

/-- Claim C9, witness at the all-zero draws (name "Elder Blade of Tides",
stat rolls 1/1/1, value 175). -/
theorem C9_unique_item_witness :
    (generateUniqueItem ⟨0, 0, 0, 0, 0, 0⟩).unique = true ∧
    (∃ st : CoreStats, (generateUniqueItem ⟨0, 0, 0, 0, 0, 0⟩).stats = some st ∧
      (1 ≤ st.attack ∧ st.attack ≤ 3) ∧ (1 ≤ st.strength ∧ st.strength ≤ 3) ∧
      (1 ≤ st.defense ∧ st.defense ≤ 3) ∧
      (generateUniqueItem ⟨0, 0, 0, 0, 0, 0⟩).value
        = 100 + 25 * (st.attack + st.strength + st.defense)) ∧
    (100 ≤ (generateUniqueItem ⟨0, 0, 0, 0, 0, 0⟩).value ∧
      (generateUniqueItem ⟨0, 0, 0, 0, 0, 0⟩).value ≤ 325) ∧
    (generateUniqueItem ⟨0, 0, 0, 0, 0, 0⟩).name ∈ allUniqueNames ∧
    allUniqueNames.length = 125 :=
  C9_unique_item ⟨0, 0, 0, 0, 0, 0⟩ (by norm_num) (by norm_num) (by norm_num) (by norm_num)
    (by norm_num) (by norm_num) (by norm_num) (by norm_num) (by norm_num) (by norm_num)
    (by norm_num) (by norm_num)
